import Mathlib

/-
Verification development for the lading load-generation harness.

This file gives a shallow embedding, in Lean 4, of the parts of the
repository that the spec claims talk about:

* `lading_payload/src/dogstatsd.rs` — `DogStatsD::to_bytes`;
* `src/payload/trace_agent.rs` — `TraceAgent::to_bytes` (JSON and MsgPack);
* `lading/src/generator/unix_datagram.rs` — `UnixDatagram::new` and the
  per-connection send loop `Child::spin`;
* `lading/src/blackhole/splunk_hec.rs` — the request handler `srv` and the
  process-wide ack counter `ACK_ID`.

Machine integers are modelled as `Nat` with explicit `% 2 ^ w` at the points
where the Rust code truncates (the `as u32` casts in `UnixDatagram::new`).
Byte buffers are `List Nat`. Randomness is modelled by abstracting the rng
into the data it ultimately produces: a stream of already-formatted member
encodings for DogStatsD, a list of per-member serialized lengths for
TraceAgent, and an explicit deterministic rng-state machine for block-cache
construction.
-/

namespace Lading

/-! ## DogStatsD serializer (`lading_payload/src/dogstatsd.rs`, `impl Serialize for DogStatsD`)

The Rust loop repeatedly draws a member from `member_generator.generate(&mut
rng)`, formats it, and writes `encoding` plus a newline while the line fits in
`bytes_remaining` (`checked_sub` returning `Some`); the first member that does
not fit stops the loop without being written. The rng together with the member
generator is abstracted as `members : Nat → List Nat`, the stream of formatted
member encodings in generation order. -/

/-- One step per generated member: `line_length = encoding.len() + 1` (the
newline); on `checked_sub` success the line is written and the budget
decreases, on failure the loop breaks returning what was accumulated. -/
def dogstatsdGo (members : Nat → List Nat) (idx : Nat) (bytesRemaining : Nat)
    (acc : List Nat) : List Nat :=
  if h : (members idx).length + 1 ≤ bytesRemaining then
    dogstatsdGo members (idx + 1) (bytesRemaining - ((members idx).length + 1))
      (acc ++ members idx ++ [10])
  else
    acc
termination_by bytesRemaining
decreasing_by omega

/-- Model of `DogStatsD::to_bytes`: run the member loop with `bytes_remaining =
max_bytes` over an empty writer. -/
def dogstatsdToBytes (members : Nat → List Nat) (maxBytes : Nat) : List Nat :=
  dogstatsdGo members 0 maxBytes []

/-! ## TraceAgent serializer (`src/payload/trace_agent.rs`, `impl Serialize for TraceAgent`)

The Rust code draws `members : Vec<Vec<Span>>` from the rng-filled entropy
buffer, sets `high = members.len()`, and loops: serialize `members[0..high]`
(JSON via `serde_json::to_vec`, or MsgPack via `rmp_serde`); if the encoding
exceeds `max_bytes` halve `high`, otherwise `write_all` the encoding and
return `Ok`. We abstract each member `members[i]` into the length `lens[i]`
of its serialization, and embed the two container encodings:

* `serde_json` serializes a slice as `[` elem `,` … `]`: 2 bracket bytes plus
  the element bytes plus `h - 1` comma bytes;
* `rmp_serde` serializes a slice as a msgpack array: a fixarray header of 1
  byte for fewer than 16 elements, 3 bytes (`array 16`) below `2^16`, else
  5 bytes (`array 32`), followed by the element bytes.

The loop is given explicit fuel: `none` means the iteration count exceeded
the fuel, so a result of `none` for every fuel is non-termination. -/

inductive Encoding where
  | json
  | msgPack
deriving DecidableEq, Repr

/-- Serialized size of `members[0..h]` given per-member serialized sizes. -/
def sliceLen (enc : Encoding) (lens : List Nat) (h : Nat) : Nat :=
  match enc with
  | .json => 2 + ((lens.take h).sum + (h - 1))
  | .msgPack => (if h < 16 then 1 else if h < 2 ^ 16 then 3 else 5) + (lens.take h).sum

/-- The shrink loop of `TraceAgent::to_bytes`: encode `members[0..high]`; if
the encoding is larger than `max_bytes`, halve `high` and retry, otherwise
write it and stop. Returns the number of bytes written on success. -/
def traceAgentLoop (enc : Encoding) (lens : List Nat) (maxBytes : Nat) :
    Nat → Nat → Option Nat
  | _, 0 => none
  | high, fuel + 1 =>
    if sliceLen enc lens high > maxBytes then
      traceAgentLoop enc lens maxBytes (high / 2) fuel
    else
      some (sliceLen enc lens high)

/-- Model of `TraceAgent::to_bytes`: the shrink loop started at `high = members.len()`. -/
def traceAgentToBytes (enc : Encoding) (lens : List Nat) (maxBytes : Nat)
    (fuel : Nat) : Option Nat :=
  traceAgentLoop enc lens maxBytes lens.length fuel

/-! ## The UnixDatagram send loop (`lading/src/generator/unix_datagram.rs`, `Child::spin`)

After connecting, `Child::spin` owns a `PeekableReceiver<Block>` fed by the
block cache and runs:

```
let mut max_detected_bytes = usize::MAX;
loop {
    let blk = rcv.peek().await ...;
    let total_bytes = blk.total_bytes;          // NonZeroU32 == blk.bytes.len()
    if total_bytes as usize > max_detected_bytes {
        let _ = rcv.next().await ...;           // advance past, no select
        continue;
    }
    tokio::select! {
        _ = self.throttle.wait_for(total_bytes) => {
            let blk = rcv.next().await ...;     // commit after grant
            match socket.send(&blk.bytes).await {
                Ok(bytes)  => { bytes_written += bytes; packets_sent += 1; }
                Err(err)   => { max_detected_bytes = blk.bytes.len() - 1;
                                max_datagram_size.set(max_detected_bytes);
                                request_failure += 1; }
            }
        }
        () = self.shutdown.recv() => return Ok(());
    }
}
```

We embed the block stream as `cache : Nat → Nat` giving the byte length of
the i-th block delivered by the peekable receiver (`Block.total_bytes` equals
`bytes.len()` and is a `NonZeroU32`, hence positive); the cursor counts how
many blocks have been taken with `rcv.next()`, so `cache s.cursor` is the
currently peeked block. Which branch of the `tokio::select!` completes in an
iteration is an external event: `shutdown`, or `granted r` (the throttle
grant followed by `socket.send` returning `Ok n` for `r = some n`, `Err` for
`r = none`). An iteration that takes the oversized-skip `continue` path never
reaches the `select!` and so consumes no event, issues no throttle request
and attempts no write; its outcome is recorded as `skipped`. -/

/-- Outcome of the select in one iteration: the shutdown branch, or the
throttle-grant branch whose write result is `some n` (sent `n` bytes) or
`none` (send error). -/
inductive LoopEvent where
  | shutdown
  | granted (writeResult : Option Nat)
deriving DecidableEq, Repr

/-- Mutable state of one `Child::spin` loop: the cache cursor (blocks
consumed by `rcv.next()`), the `bytes_written`, `packets_sent` and
`request_failure` counters, the learned ceiling `max_detected_bytes`, and the
last value set on the `max_unix_datagram_bytes` gauge (`none` before any
`set`). -/
structure ChildState where
  cursor : Nat
  bytesWritten : Nat
  packetsSent : Nat
  requestFailure : Nat
  maxDetected : Nat
  maxDatagramGauge : Option Nat
deriving DecidableEq, Repr

/-- What one loop iteration did: advanced past an oversized block without a
throttle request or write attempt (`skipped`), returned `Ok(())` on shutdown
(`exited`), wrote a block (`wrote`), or consumed a block whose send failed
(`sendFailed`). -/
inductive IterOutcome where
  | skipped
  | exited
  | wrote
  | sendFailed
deriving DecidableEq, Repr

/-- Rust `usize::MAX` on the 64-bit targets lading builds for. -/
def usizeMax : Nat := 2 ^ 64 - 1

/-- Initial loop state: counters zero, `max_detected_bytes = usize::MAX`,
gauge registered but not yet set. -/
def childInit : ChildState :=
  { cursor := 0, bytesWritten := 0, packetsSent := 0, requestFailure := 0,
    maxDetected := usizeMax, maxDatagramGauge := none }

/-- One iteration of the `Child::spin` loop body. The oversized check runs
before the `select!`, so that path ignores the event. In the granted branch
the block is consumed (`rcv.next()`) before the write, so the cursor advances
whatever the write result; a send error lowers `max_detected_bytes` to the
`bytes.len() - 1` of the consumed block and sets the gauge to that value. -/
def spinIter (cache : Nat → Nat) (s : ChildState) (ev : LoopEvent) :
    ChildState × IterOutcome :=
  let sz := cache s.cursor
  if sz > s.maxDetected then
    ({ s with cursor := s.cursor + 1 }, .skipped)
  else
    match ev with
    | .shutdown => (s, .exited)
    | .granted writeResult =>
      let s₁ := { s with cursor := s.cursor + 1 }
      match writeResult with
      | some n =>
        ({ s₁ with bytesWritten := s₁.bytesWritten + n,
                   packetsSent := s₁.packetsSent + 1 }, .wrote)
      | none =>
        ({ s₁ with maxDetected := sz - 1,
                   maxDatagramGauge := some (sz - 1),
                   requestFailure := s₁.requestFailure + 1 }, .sendFailed)

/-- Run the loop over a schedule of select outcomes, one oracle event per
iteration (skip iterations ignore theirs, mirroring that they never reach the
`select!`). -/
def spinRun (cache : Nat → Nat) (events : List LoopEvent) (s : ChildState) :
    ChildState :=
  match events with
  | [] => s
  | ev :: evs => spinRun cache evs (spinIter cache s ev).1

/-! ## UnixDatagram generator construction (`lading/src/generator/unix_datagram.rs`, `UnixDatagram::new`)

`UnixDatagram::new` seeds one `StdRng` from `config.seed`, converts
`config.bytes_per_second.get_bytes()` (a `u128`) with `as u32` and requires
the result nonzero (`Error::Zero`), then loops `parallel_connections` times;
each iteration converts `maximum_prebuild_cache_size_bytes.get_bytes()` with
`as u32`, requires it nonzero, and builds the block cache: `Streaming` passes
`config.seed` to `Cache::stream`, `Fixed` passes `&mut rng` — the single rng
seeded once before the loop — to `Cache::fixed`.

The rng is modelled as a deterministic state machine on `Nat`: `rngNext`
returns the current state as the drawn value and advances the state. This
captures exactly what the claims need: `StdRng` is a deterministic stream,
construction from it consumes entropy and leaves the stream advanced. -/

/-- Deterministic model rng: draw the state, advance the state. -/
def rngNext (r : Nat) : Nat × Nat := (r, r + 1)

/-- A `lading_payload::block::Block`: the serialized bytes; `total_bytes` is
`bytes.len()`. -/
structure Block where
  bytes : List Nat
deriving DecidableEq, Repr

/-- Number of bytes of a block, the `total_bytes` field. -/
def Block.totalBytes (b : Block) : Nat := b.bytes.length

/-- A payload serializer abstracted per the `Serialize` contract: from an rng
state and a byte budget produce the appended bytes and the advanced rng
state. -/
def Serializer : Type := Nat → Nat → List Nat × Nat

/-- Modelled from the spec: `block::Cache::fixed` of
`lading_payload/src/block.rs`, which is not under `src/`. Spec section 4.C:
while `remaining > 0`, choose a candidate size from the block-size set at
random (here: the next rng draw, reduced modulo the set size), reject it if
it exceeds `remaining`, otherwise invoke the payload serializer with that
budget and the shared rng; abandon a candidate that serialized to zero bytes;
append the block and decrement `remaining` by its actual length. Construction
is deterministic in the rng state and consumes entropy from the shared rng,
returning the advanced state. Fuel bounds the iteration count. -/
def cacheFixedGo (ser : Serializer) (sizes : List Nat) :
    Nat → Nat → Nat → List Block → List Block × Nat
  | 0, rng, _, acc => (acc, rng)
  | fuel + 1, rng, remaining, acc =>
    if remaining = 0 then (acc, rng)
    else
      let (draw, rng₁) := rngNext rng
      let sz := sizes.getD (draw % sizes.length) 0
      if sz > remaining then cacheFixedGo ser sizes fuel rng₁ remaining acc
      else
        let (bytes, rng₂) := ser rng₁ sz
        if bytes.length = 0 then cacheFixedGo ser sizes fuel rng₂ remaining acc
        else
          cacheFixedGo ser sizes fuel rng₂ (remaining - bytes.length)
            (acc ++ [Block.mk bytes])

/-- Modelled from the spec: entry point of `block::Cache::fixed`. -/
def cacheFixed (ser : Serializer) (sizes : List Nat) (fuel rng totalBytes : Nat) :
    List Block × Nat :=
  cacheFixedGo ser sizes fuel rng totalBytes []

/-- Configuration slice of `unix_datagram::Config` that `UnixDatagram::new`
reads. The two byte-quantity fields hold the `u128` returned by
`byte_unit::Byte::get_bytes()`. -/
structure UDConfig where
  seed : Nat
  bytesPerSecond : Nat
  maximumPrebuildCacheSizeBytes : Nat
  fixedCache : Bool
  parallelConnections : Nat
deriving DecidableEq, Repr

/-- The `as u32` cast in `UnixDatagram::new`: truncation modulo `2 ^ 32`. -/
def asU32 (v : Nat) : Nat := v % 2 ^ 32

/-- The `Error` cases of `UnixDatagram::new` that are reachable in this
model. -/
inductive UDError where
  | zero
deriving DecidableEq, Repr

/-- Model of `NonZeroU32::new(v).ok_or(Error::Zero)` on an already-truncated value:
`none` models the `Error::Zero` return. -/
def NonZeroU32.check (v : Nat) : Option Nat :=
  if v = 0 then none else some v

/-- The per-connection loop of `UnixDatagram::new`: each iteration re-checks
the truncated cache size against zero and builds one block cache. `Streaming`
caches are seeded from `cfg.seed` directly; `Fixed` caches consume the single
threaded rng and pass its advanced state to the next iteration. -/
def udNewChildren (ser : Serializer) (sizes : List Nat) (fuel : Nat)
    (cfg : UDConfig) : Nat → Nat → Except UDError (List (List Block) × Nat)
  | 0, rng => .ok ([], rng)
  | n + 1, rng =>
    let totalBytes := asU32 cfg.maximumPrebuildCacheSizeBytes
    if totalBytes = 0 then .error .zero
    else
      let cache :=
        if cfg.fixedCache then (cacheFixed ser sizes fuel rng totalBytes).1
        else (cacheFixed ser sizes fuel cfg.seed totalBytes).1
      let rng₁ :=
        if cfg.fixedCache then (cacheFixed ser sizes fuel rng totalBytes).2
        else rng
      match udNewChildren ser sizes fuel cfg n rng₁ with
      | .error e => .error e
      | .ok (rest, rngFinal) => .ok (cache :: rest, rngFinal)

/-- Model of `UnixDatagram::new`: seed the rng once from the configured seed, check
the truncated `bytes_per_second` against zero, then build one block cache per
parallel connection. On success returns the effective (truncated)
`bytes_per_second` together with the block cache of each connection. -/
def unixDatagramNew (ser : Serializer) (sizes : List Nat) (fuel : Nat)
    (cfg : UDConfig) : Except UDError (Nat × List (List Block)) :=
  let rng := cfg.seed
  match NonZeroU32.check (asU32 cfg.bytesPerSecond) with
  | none => .error .zero
  | some bps =>
    match udNewChildren ser sizes fuel cfg cfg.parallelConnections rng with
    | .error e => .error e
    | .ok (caches, _) => .ok (bps, caches)

/-! ## Splunk HEC blackhole (`lading/src/blackhole/splunk_hec.rs`)

The handler `srv` receives a decoded request body and dispatches on
`(parts.method, parts.uri.path())`. For a `POST` to one of the four
event-submission paths it performs `ACK_ID.fetch_add(1, Ordering::Relaxed)`
on the process-wide `static ACK_ID: AtomicU64 = AtomicU64::new(0)` and
answers `200` with `HecResponse { text: "Success", code: 0, ack_id }`. For a
`POST` to `/services/collector/ack` it tries
`serde_json::from_slice::<HecAckRequest>`: on success it answers `200` with
`HecAckResponse::from(ack_request)` — the `acks` ids each mapped to `true`
and collected into an `FxHashMap` — and on parse failure it answers `400`.
Any other request answers `200` with an empty body.

We model the body of the ack request as the parse result `Option (List Nat)`
(`none` = does not deserialize as `{"acks": [...]}`), the `FxHashMap` as a
lookup function `Nat → Option Bool` built by successive inserts, and the
atomic counter as explicit state threaded through the handler. -/

/-- The request methods the dispatch distinguishes. -/
inductive HttpMethod where
  | post
  | get
deriving DecidableEq, Repr

/-- Response bodies `srv` can produce. -/
inductive SrvBody where
  | empty
  | event (text : String) (code : Nat) (ackId : Nat)
  | ackBody (acks : Nat → Option Bool)

/-- The four event-submission paths of the `match` in `srv`. -/
def isEventPath (p : String) : Bool :=
  p = "/services/collector/event" || p = "/services/collector/event/1.0" ||
    p = "/services/collector/raw" || p = "/services/collector/raw/1.0"

/-- Insert into the modelled `FxHashMap`. -/
def hashMapInsert (k : Nat) (v : Bool) (m : Nat → Option Bool) :
    Nat → Option Bool :=
  fun x => if x = k then some v else m x

/-- Model of `HecAckResponse::from`: map every requested ack id to `true` and collect
into a hash map. -/
def hecAckResponseFrom (acks : List Nat) : Nat → Option Bool :=
  acks.foldl (fun m a => hashMapInsert a true m) (fun _ => none)

/-- The dispatch of `srv` on `(method, path)`, threading the `ACK_ID`
counter: returns `(status, body, counter after the request)`. -/
def srv (method : HttpMethod) (path : String) (body : Option (List Nat))
    (ackCounter : Nat) : Nat × SrvBody × Nat :=
  if method = .post ∧ isEventPath path then
    (200, .event "Success" 0 ackCounter, ackCounter + 1)
  else if method = .post ∧ path = "/services/collector/ack" then
    match body with
    | some acks => (200, .ackBody (hecAckResponseFrom acks), ackCounter)
    | none => (400, .empty, ackCounter)
  else
    (200, .empty, ackCounter)

/-- Serve a sequence of requests in order, threading the process-wide
counter; returns the `(status, body)` responses and the final counter. -/
def srvRun : List (HttpMethod × String × Option (List Nat)) → Nat →
    List (Nat × SrvBody) × Nat
  | [], c => ([], c)
  | (m, p, b) :: rest, c =>
    (((srv m p b c).1, (srv m p b c).2.1) :: (srvRun rest (srv m p b c).2.2).1,
      (srvRun rest (srv m p b c).2.2).2)

/-- The ack ids carried in the event responses of a response list, in
order. -/
def eventAckIds (rs : List (Nat × SrvBody)) : List Nat :=
  rs.filterMap fun r =>
    match r.2 with
    | .event _ _ id => some id
    | _ => none

/-! ## Auxiliary definitions for stating the claims and their witnesses -/

/-- The sequence of Fixed caches produced by threading one rng through
successive constructions: child `0` is built from the rng state `rng`, child
`i + 1` from the state the construction of child `i` left behind. -/
def fixedCacheSeq (ser : Serializer) (sizes : List Nat) (fuel total : Nat) :
    Nat → Nat → List (List Block)
  | 0, _ => []
  | n + 1, rng =>
    (cacheFixed ser sizes fuel rng total).1 ::
      fixedCacheSeq ser sizes fuel total n (cacheFixed ser sizes fuel rng total).2

/-- Whether a `UnixDatagram::new` result is a constructed generator rather
than an error. -/
def isOkE (e : Except UDError (Nat × List (List Block))) : Bool :=
  match e with
  | .ok _ => true
  | .error _ => false

/-- A concrete payload serializer satisfying the `Serialize` contract of
spec section 4.B, in the spirit of the "constant fill" serializer of spec
section 8: append one byte drawn from the rng when the budget allows it,
advancing the rng. Used to instantiate counterexamples and witnesses. -/
def serOne : Serializer :=
  fun rng maxBytes => (if maxBytes = 0 then [] else [rng % 256], rng + 1)

/-- Concrete configuration: Fixed cache method, two parallel connections. -/
def udConfigC4 : UDConfig :=
  { seed := 0, bytesPerSecond := 1024, maximumPrebuildCacheSizeBytes := 2,
    fixedCache := true, parallelConnections := 2 }

/-- Concrete configuration: cache size resolving to zero bytes but zero
parallel connections. -/
def udConfigC9 : UDConfig :=
  { seed := 0, bytesPerSecond := 1, maximumPrebuildCacheSizeBytes := 0,
    fixedCache := true, parallelConnections := 0 }

/-- Concrete configuration: `bytes_per_second` resolving to zero. -/
def udConfigBpsZero : UDConfig :=
  { seed := 0, bytesPerSecond := 0, maximumPrebuildCacheSizeBytes := 1,
    fixedCache := true, parallelConnections := 1 }

/-- Concrete configuration: cache size resolving to zero bytes with one
parallel connection. -/
def udConfigCacheZero : UDConfig :=
  { seed := 0, bytesPerSecond := 1, maximumPrebuildCacheSizeBytes := 0,
    fixedCache := true, parallelConnections := 1 }

/-- Concrete configuration: both quantities nonzero. -/
def udConfigOk : UDConfig :=
  { seed := 0, bytesPerSecond := 1, maximumPrebuildCacheSizeBytes := 1,
    fixedCache := true, parallelConnections := 1 }

/-- Concrete configuration: `bytes_per_second` an exact nonzero multiple of
`2 ^ 32`. -/
def udConfigBpsMultiple : UDConfig :=
  { seed := 0, bytesPerSecond := 2 ^ 32, maximumPrebuildCacheSizeBytes := 1,
    fixedCache := true, parallelConnections := 1 }

/-- Concrete configuration: cache size an exact nonzero multiple of
`2 ^ 32`. -/
def udConfigCacheMultiple : UDConfig :=
  { seed := 0, bytesPerSecond := 1, maximumPrebuildCacheSizeBytes := 2 ^ 32,
    fixedCache := true, parallelConnections := 1 }

/-- Concrete configuration: `bytes_per_second` above `2 ^ 32` and not a
multiple of it. -/
def udConfigBpsBig : UDConfig :=
  { seed := 0, bytesPerSecond := 2 ^ 32 + 5, maximumPrebuildCacheSizeBytes := 1,
    fixedCache := true, parallelConnections := 1 }

/-- A block stream whose blocks are all one byte long. -/
def cacheConst1 : Nat → Nat := fun _ => 1

/-- A block stream whose blocks are all nine bytes long. -/
def cacheConst9 : Nat → Nat := fun _ => 9

/-- A loop state that has already learned a ceiling of eight bytes. -/
def stateMax8 : ChildState := { childInit with maxDetected := 8 }

/-! ## Helper lemmas -/

theorem dogstatsdGo_length (members : Nat → List Nat) :
    ∀ bytesRemaining idx acc,
      (dogstatsdGo members idx bytesRemaining acc).length ≤
        acc.length + bytesRemaining := by
  intro bytesRemaining
  induction bytesRemaining using Nat.strong_induction_on with
  | _ bytesRemaining ih =>
    intro idx acc
    rw [dogstatsdGo]
    split
    · next h =>
      have hlt : bytesRemaining - ((members idx).length + 1) < bytesRemaining := by
        omega
      have := ih _ hlt (idx + 1) (acc ++ members idx ++ [10])
      simp only [List.length_append, List.length_cons, List.length_nil] at this ⊢
      omega
    · omega

theorem traceAgentLoop_le (enc : Encoding) (lens : List Nat) (maxBytes : Nat) :
    ∀ fuel high n, traceAgentLoop enc lens maxBytes high fuel = some n →
      n ≤ maxBytes := by
  intro fuel
  induction fuel with
  | zero => intro high n hn; simp [traceAgentLoop] at hn
  | succ fuel ih =>
    intro high n hn
    rw [traceAgentLoop] at hn
    split at hn
    · exact ih _ _ hn
    · next hfit =>
      cases hn
      omega

theorem sliceLen_pos (enc : Encoding) (lens : List Nat) (h : Nat) :
    0 < sliceLen enc lens h := by
  cases enc
  · simp only [sliceLen]; omega
  · simp only [sliceLen]; split <;> [omega; (split <;> omega)]

theorem sliceLen_json_two_le (lens : List Nat) (h : Nat) :
    2 ≤ sliceLen Encoding.json lens h := by
  simp only [sliceLen]
  omega

theorem traceAgentLoop_stuck (enc : Encoding) (lens : List Nat) (maxBytes : Nat)
    (hsmall : ∀ high, maxBytes < sliceLen enc lens high) :
    ∀ fuel high, traceAgentLoop enc lens maxBytes high fuel = none := by
  intro fuel
  induction fuel with
  | zero => intro high; rfl
  | succ fuel ih =>
    intro high
    rw [traceAgentLoop]
    have := hsmall high
    split
    · exact ih _
    · omega

theorem spinIter_maxDetected_le (cache : Nat → Nat) (s : ChildState)
    (ev : LoopEvent) : (spinIter cache s ev).1.maxDetected ≤ s.maxDetected := by
  simp only [spinIter]
  split
  · simp
  · cases ev with
    | shutdown => simp
    | granted writeResult =>
      cases writeResult with
      | some n => simp
      | none =>
        next hle =>
        simp only
        omega

theorem spinRun_maxDetected_le (cache : Nat → Nat) (events : List LoopEvent) :
    ∀ s : ChildState, (spinRun cache events s).maxDetected ≤ s.maxDetected := by
  induction events with
  | nil => intro s; exact Nat.le_refl _
  | cons ev evs ih =>
    intro s
    exact Nat.le_trans (ih _) (spinIter_maxDetected_le cache s ev)

theorem hecAckResponseFrom_eq (acks : List Nat) :
    ∀ (m : Nat → Option Bool) (x : Nat),
      (acks.foldl (fun m a => hashMapInsert a true m) m) x =
        if x ∈ acks then some true else m x := by
  induction acks with
  | nil => intro m x; simp
  | cons a as ih =>
    intro m x
    rw [List.foldl_cons, ih]
    by_cases hx : x ∈ as
    · simp [hx]
    · by_cases hxa : x = a <;> simp [hx, hxa, hashMapInsert]

theorem udNewChildren_fixed_eq (ser : Serializer) (sizes : List Nat)
    (fuel : Nat) (cfg : UDConfig) (hfix : cfg.fixedCache = true)
    (htot : asU32 cfg.maximumPrebuildCacheSizeBytes ≠ 0) :
    ∀ n rng, ∃ rngF, udNewChildren ser sizes fuel cfg n rng =
      .ok (fixedCacheSeq ser sizes fuel
        (asU32 cfg.maximumPrebuildCacheSizeBytes) n rng, rngF) := by
  intro n
  induction n with
  | zero => intro rng; exact ⟨rng, rfl⟩
  | succ n ih =>
    intro rng
    obtain ⟨rngF, hF⟩ :=
      ih (cacheFixed ser sizes fuel rng (asU32 cfg.maximumPrebuildCacheSizeBytes)).2
    refine ⟨rngF, ?_⟩
    rw [udNewChildren]
    simp only [hfix, if_neg htot, if_pos rfl, if_true]
    rw [hF]
    rfl

theorem udNewChildren_isOk (ser : Serializer) (sizes : List Nat)
    (fuel : Nat) (cfg : UDConfig)
    (htot : asU32 cfg.maximumPrebuildCacheSizeBytes ≠ 0) :
    ∀ n rng, ∃ out, udNewChildren ser sizes fuel cfg n rng = .ok out := by
  intro n
  induction n with
  | zero => intro rng; exact ⟨_, rfl⟩
  | succ n ih =>
    intro rng
    by_cases hfix : cfg.fixedCache = true
    · obtain ⟨⟨rest, rngF⟩, hout⟩ :=
        ih (cacheFixed ser sizes fuel rng (asU32 cfg.maximumPrebuildCacheSizeBytes)).2
      refine ⟨((cacheFixed ser sizes fuel rng
        (asU32 cfg.maximumPrebuildCacheSizeBytes)).1 :: rest, rngF), ?_⟩
      rw [udNewChildren]
      simp only [if_neg htot, hfix, if_true]
      rw [hout]
    · obtain ⟨⟨rest, rngF⟩, hout⟩ := ih rng
      refine ⟨((cacheFixed ser sizes fuel cfg.seed
        (asU32 cfg.maximumPrebuildCacheSizeBytes)).1 :: rest, rngF), ?_⟩
      rw [udNewChildren]
      simp only [if_neg htot, hfix, if_false, Bool.false_eq_true]
      rw [hout]

theorem unixDatagramNew_bps_zero (ser : Serializer) (sizes : List Nat)
    (fuel : Nat) (cfg : UDConfig) (hbps : asU32 cfg.bytesPerSecond = 0) :
    unixDatagramNew ser sizes fuel cfg = .error .zero := by
  unfold unixDatagramNew
  simp [NonZeroU32.check, hbps]

theorem unixDatagramNew_cache_zero (ser : Serializer) (sizes : List Nat)
    (fuel : Nat) (cfg : UDConfig)
    (htot : asU32 cfg.maximumPrebuildCacheSizeBytes = 0)
    (hbps : asU32 cfg.bytesPerSecond ≠ 0)
    (hpar : 1 ≤ cfg.parallelConnections) :
    unixDatagramNew ser sizes fuel cfg = .error .zero := by
  obtain ⟨m, hm⟩ : ∃ m, cfg.parallelConnections = m + 1 :=
    ⟨cfg.parallelConnections - 1, by omega⟩
  unfold unixDatagramNew
  simp only [NonZeroU32.check, if_neg hbps, hm]
  rw [udNewChildren]
  simp [htot]

theorem unixDatagramNew_ok_eq (ser : Serializer) (sizes : List Nat)
    (fuel : Nat) (cfg : UDConfig)
    (hbps : asU32 cfg.bytesPerSecond ≠ 0)
    (htot : asU32 cfg.maximumPrebuildCacheSizeBytes ≠ 0) :
    ∃ caches, unixDatagramNew ser sizes fuel cfg =
      .ok (asU32 cfg.bytesPerSecond, caches) := by
  obtain ⟨⟨caches, rngF⟩, hout⟩ :=
    udNewChildren_isOk ser sizes fuel cfg htot cfg.parallelConnections cfg.seed
  refine ⟨caches, ?_⟩
  unfold unixDatagramNew
  simp only [NonZeroU32.check, if_neg hbps]
  rw [hout]

/-! ## The claims -/

/-- C1: a successful `to_bytes` call appends at most `max_bytes` bytes to the
writer: `DogStatsD::to_bytes` for every stream of generated member encodings
and every budget, and `TraceAgent::to_bytes` (covering both the JSON and the
MsgPack encoding) for every member list, budget and iteration bound whenever
the loop returns. -/
theorem c1_to_bytes_within_budget :
    (∀ (members : Nat → List Nat) (maxBytes : Nat),
        (dogstatsdToBytes members maxBytes).length ≤ maxBytes) ∧
    (∀ (enc : Encoding) (lens : List Nat) (maxBytes fuel n : Nat),
        traceAgentToBytes enc lens maxBytes fuel = some n → n ≤ maxBytes) := by
  constructor
  · intro members maxBytes
    have h := dogstatsdGo_length members maxBytes 0 []
    simpa using h
  · intro enc lens maxBytes fuel n hn
    exact traceAgentLoop_le enc lens maxBytes fuel lens.length n hn

theorem c1_to_bytes_within_budget_witness :
    traceAgentToBytes Encoding.json [] 2 5 = some 2 ∧ 2 ≤ 2 :=
  ⟨by decide, c1_to_bytes_within_budget.2 Encoding.json [] 2 5 2 (by decide)⟩

/-- C2: when the child is suspended in `throttle.wait_for` for a peeked
block — so the block passed the oversized check — a shutdown arrival makes
the iteration return `Ok(())` with the state untouched: the peeked block is
not consumed (the cursor does not advance, `rcv.next()` is not called) and
`bytes_written` and `packets_sent` keep their values; and the block is
removed from the cache only after the throttle grants and before the write
is attempted: in the granted branch the cursor advances whatever the write
result turns out to be. -/
theorem c2_shutdown_peek_then_commit (cache : Nat → Nat) (s : ChildState)
    (hfit : cache s.cursor ≤ s.maxDetected) :
    spinIter cache s .shutdown = (s, .exited) ∧
    (∀ writeResult,
      (spinIter cache s (.granted writeResult)).1.cursor = s.cursor + 1) := by
  constructor
  · simp only [spinIter]
    rw [if_neg (by omega)]
  · intro writeResult
    simp only [spinIter]
    rw [if_neg (by omega)]
    cases writeResult <;> rfl

theorem c2_shutdown_peek_then_commit_witness :
    spinIter cacheConst1 childInit .shutdown = (childInit, .exited) ∧
    (spinIter cacheConst1 childInit (.granted (some 3))).1.cursor =
      childInit.cursor + 1 :=
  ⟨(c2_shutdown_peek_then_commit cacheConst1 childInit (by decide)).1,
   (c2_shutdown_peek_then_commit cacheConst1 childInit (by decide)).2 (some 3)⟩

/-- C3: when the send of the consumed block (of length `cache s.cursor`,
which passed the oversized check) fails, `max_detected_bytes` is set to that
length minus one and the `max_unix_datagram_bytes` gauge is set to the same
value; and from any state, a peeked block whose length exceeds
`max_detected_bytes` is advanced past with outcome `skipped`: no throttle
request is issued and no write is attempted, whichever event the select
would have delivered. -/
theorem c3_adaptive_ceiling (cache : Nat → Nat) (s : ChildState) :
    (cache s.cursor ≤ s.maxDetected →
      (spinIter cache s (.granted none)).1.maxDetected = cache s.cursor - 1 ∧
      (spinIter cache s (.granted none)).1.maxDatagramGauge =
        some (cache s.cursor - 1) ∧
      (spinIter cache s (.granted none)).2 = .sendFailed) ∧
    (∀ ev, s.maxDetected < cache s.cursor →
      spinIter cache s ev = ({ s with cursor := s.cursor + 1 }, .skipped)) := by
  constructor
  · intro hfit
    simp only [spinIter]
    rw [if_neg (by omega)]
    exact ⟨rfl, rfl, rfl⟩
  · intro ev hover
    simp only [spinIter]
    rw [if_pos (by omega)]

theorem c3_adaptive_ceiling_witness :
    spinIter cacheConst9 stateMax8 .shutdown =
      ({ stateMax8 with cursor := stateMax8.cursor + 1 }, .skipped) ∧
    (spinIter cacheConst1 childInit (.granted none)).1.maxDetected =
      cacheConst1 childInit.cursor - 1 :=
  ⟨(c3_adaptive_ceiling cacheConst9 stateMax8).2 .shutdown (by decide),
   ((c3_adaptive_ceiling cacheConst1 childInit).1 (by decide)).1⟩

/-- C5 (refuting the claimed termination): `TraceAgent::to_bytes` does not
terminate when even the empty span list exceeds the budget. For
`max_bytes = 0` (either encoding) and for `max_bytes = 1` with the JSON
encoding, every encoding attempt — including the empty slice, which costs 2
bytes in JSON and at least 1 byte in MsgPack — exceeds the budget, and
`high /= 2` eventually pins `high` at `0`, so the loop returns `none` for
every fuel: the Rust loop never returns. -/
theorem c5_zero_budget_loops_forever :
    (∀ (enc : Encoding) (lens : List Nat) (fuel : Nat),
        traceAgentToBytes enc lens 0 fuel = none) ∧
    (∀ (lens : List Nat) (fuel : Nat),
        traceAgentToBytes Encoding.json lens 1 fuel = none) := by
  constructor
  · intro enc lens fuel
    exact traceAgentLoop_stuck enc lens 0
      (fun high => sliceLen_pos enc lens high) fuel _
  · intro lens fuel
    exact traceAgentLoop_stuck Encoding.json lens 1
      (fun high => by have h := sliceLen_json_two_le lens high; omega) fuel _

/-- C6: `max_detected_bytes` starts at `usize::MAX` and never increases:
each iteration leaves it at most its previous value; each assignment
(outcome `sendFailed`) sets it to the failing block length minus one,
strictly below the current value; and any whole run of the loop is
non-increasing. -/
theorem c6_max_detected_monotone :
    childInit.maxDetected = usizeMax ∧
    (∀ (cache : Nat → Nat) (s : ChildState) (ev : LoopEvent),
        (spinIter cache s ev).1.maxDetected ≤ s.maxDetected) ∧
    (∀ (cache : Nat → Nat) (s : ChildState) (ev : LoopEvent),
        (spinIter cache s ev).2 = .sendFailed → 0 < cache s.cursor →
          (spinIter cache s ev).1.maxDetected = cache s.cursor - 1 ∧
          (spinIter cache s ev).1.maxDetected < s.maxDetected) ∧
    (∀ (cache : Nat → Nat) (events : List LoopEvent) (s : ChildState),
        (spinRun cache events s).maxDetected ≤ s.maxDetected) := by
  refine ⟨rfl, spinIter_maxDetected_le, ?_, spinRun_maxDetected_le⟩
  intro cache s ev hfail hpos
  by_cases hover : cache s.cursor > s.maxDetected
  · exfalso
    have hskip : (spinIter cache s ev).2 = .skipped := by
      simp [spinIter, hover]
    rw [hfail] at hskip
    exact absurd hskip (by decide)
  · cases ev with
    | shutdown =>
      exfalso
      have hexit : (spinIter cache s .shutdown).2 = .exited := by
        simp [spinIter, hover]
      rw [hfail] at hexit
      exact absurd hexit (by decide)
    | granted writeResult =>
      cases writeResult with
      | some n =>
        exfalso
        have hw : (spinIter cache s (.granted (some n))).2 = .wrote := by
          simp [spinIter, hover]
        rw [hfail] at hw
        exact absurd hw (by decide)
      | none =>
        constructor
        · simp [spinIter, hover]
        · have hd : (spinIter cache s (.granted none)).1.maxDetected =
              cache s.cursor - 1 := by
            simp [spinIter, hover]
          rw [hd]
          omega

theorem c6_max_detected_monotone_witness :
    (spinIter cacheConst1 childInit (.granted none)).1.maxDetected =
      cacheConst1 childInit.cursor - 1 ∧
    (spinIter cacheConst1 childInit (.granted none)).1.maxDetected <
      childInit.maxDetected :=
  c6_max_detected_monotone.2.2.1 cacheConst1 childInit (.granted none)
    (by decide) (by decide)

/-- C4 counterexample: a Fixed-method configuration with two parallel
connections whose two children receive different block sequences — the rng
is seeded once, before the per-connection loop, and the construction of the
first cache advances it, so the second cache continues the stream: with the
one-byte serializer the first child holds bytes `[1]`, `[3]` and the second
`[5]`, `[7]`, refuting byte-identical caches. -/
theorem c4_counterexample :
    udConfigC4.fixedCache = true ∧ udConfigC4.parallelConnections = 2 ∧
    unixDatagramNew serOne [1] 8 udConfigC4 =
      .ok (1024, [[Block.mk [1], Block.mk [3]], [Block.mk [5], Block.mk [7]]]) ∧
    ([Block.mk [1], Block.mk [3]] : List Block) ≠
      [Block.mk [5], Block.mk [7]] :=
  ⟨rfl, rfl, rfl, by decide⟩

/-- C4 amended: when `block_cache_method` is Fixed, the n children build
their caches from successive states of a single rng seeded once from the
configured seed — each construction continues the stream where the previous
one left it — so the children do not in general hold byte-identical block
sequences. -/
theorem c4_amended_threaded_rng (ser : Serializer) (sizes : List Nat)
    (fuel : Nat) (cfg : UDConfig) (hfix : cfg.fixedCache = true)
    (hbps : asU32 cfg.bytesPerSecond ≠ 0)
    (htot : asU32 cfg.maximumPrebuildCacheSizeBytes ≠ 0) :
    unixDatagramNew ser sizes fuel cfg =
      .ok (asU32 cfg.bytesPerSecond,
        fixedCacheSeq ser sizes fuel (asU32 cfg.maximumPrebuildCacheSizeBytes)
          cfg.parallelConnections cfg.seed) := by
  obtain ⟨rngF, hF⟩ := udNewChildren_fixed_eq ser sizes fuel cfg hfix htot
    cfg.parallelConnections cfg.seed
  unfold unixDatagramNew
  simp only [NonZeroU32.check, if_neg hbps]
  rw [hF]

theorem c4_amended_threaded_rng_witness :
    unixDatagramNew serOne [1] 8 udConfigC4 =
      .ok (asU32 udConfigC4.bytesPerSecond,
        fixedCacheSeq serOne [1] 8
          (asU32 udConfigC4.maximumPrebuildCacheSizeBytes)
          udConfigC4.parallelConnections udConfigC4.seed) :=
  c4_amended_threaded_rng serOne [1] 8 udConfigC4 rfl (by decide) (by decide)

/-- C7: a POST to `/services/collector/ack` whose decoded body parses as an
acks list returns HTTP 200 with the map produced by `HecAckResponse::from`,
which sends every requested id to `true` and contains no other keys (lookup
of any id not requested is absent); the counter is untouched; a body that
does not parse as that shape returns HTTP 400. -/
theorem c7_hec_ack_response (acks : List Nat) (c : Nat) :
    srv .post "/services/collector/ack" (some acks) c =
      (200, .ackBody (hecAckResponseFrom acks), c) ∧
    (∀ i, i ∈ acks → hecAckResponseFrom acks i = some true) ∧
    (∀ i, i ∉ acks → hecAckResponseFrom acks i = none) ∧
    srv .post "/services/collector/ack" none c = (400, .empty, c) := by
  have hpath : isEventPath "/services/collector/ack" = false := rfl
  refine ⟨?_, ?_, ?_, ?_⟩
  · simp [srv, hpath]
  · intro i hi
    rw [hecAckResponseFrom, hecAckResponseFrom_eq]
    simp [hi]
  · intro i hi
    rw [hecAckResponseFrom, hecAckResponseFrom_eq]
    simp [hi]
  · simp [srv, hpath]

theorem c7_hec_ack_response_witness :
    srv .post "/services/collector/ack" (some [1, 2, 3]) 0 =
      (200, .ackBody (hecAckResponseFrom [1, 2, 3]), 0) ∧
    hecAckResponseFrom [1, 2, 3] 2 = some true ∧
    hecAckResponseFrom [1, 2, 3] 5 = none ∧
    srv .post "/services/collector/ack" none 0 = (400, .empty, 0) :=
  ⟨(c7_hec_ack_response [1, 2, 3] 0).1,
   (c7_hec_ack_response [1, 2, 3] 0).2.1 2 (by decide),
   (c7_hec_ack_response [1, 2, 3] 0).2.2.1 5 (by decide),
   (c7_hec_ack_response [1, 2, 3] 0).2.2.2⟩

/-- C8: the ack-id source is the single process-wide counter threaded
through `srv`, and `ACK_ID` starts at zero; every POST to one of the four
event-submission paths answers 200 with the current counter value as the
`ackId` and advances the counter by exactly one, so n successive event POSTs
return the ids `c, c+1, …, c+n-1` and, from the initial counter `0`, the
strictly increasing ids `0, 1, …, n-1`. -/
theorem c8_ack_id_counter (path : String) (hpath : isEventPath path = true) :
    (∀ c, srv .post path none c = (200, .event "Success" 0 c, c + 1)) ∧
    (∀ n c, eventAckIds (srvRun (List.replicate n (.post, path, none)) c).1 =
      List.range' c n) ∧
    (∀ n, eventAckIds (srvRun (List.replicate n (.post, path, none)) 0).1 =
      List.range n) ∧
    (∀ n c, (srvRun (List.replicate n (.post, path, none)) c).2 = c + n) := by
  have hsingle : ∀ c, srv .post path none c =
      (200, .event "Success" 0 c, c + 1) := by
    intro c
    simp [srv, hpath]
  have hids : ∀ n c,
      eventAckIds (srvRun (List.replicate n (.post, path, none)) c).1 =
        List.range' c n := by
    intro n
    induction n with
    | zero => intro c; simp [srvRun, eventAckIds]
    | succ n ih =>
      intro c
      rw [List.replicate_succ, srvRun, hsingle c]
      simp only [eventAckIds, List.filterMap_cons] at ih ⊢
      rw [ih (c + 1), List.range'_succ]
  have hcount : ∀ n c,
      (srvRun (List.replicate n (.post, path, none)) c).2 = c + n := by
    intro n
    induction n with
    | zero => intro c; simp [srvRun]
    | succ n ih =>
      intro c
      rw [List.replicate_succ, srvRun, hsingle c]
      simp only
      rw [ih (c + 1)]
      omega
  refine ⟨hsingle, hids, ?_, hcount⟩
  intro n
  rw [hids n 0, List.range_eq_range']

theorem c8_ack_id_counter_witness :
    srv .post "/services/collector/event" none 0 =
      (200, .event "Success" 0 0, 0 + 1) ∧
    eventAckIds (srvRun (List.replicate 3
      (.post, "/services/collector/event", none)) 0).1 = List.range 3 :=
  ⟨(c8_ack_id_counter "/services/collector/event" rfl).1 0,
   (c8_ack_id_counter "/services/collector/event" rfl).2.2.1 3⟩

/-- C9 counterexample: with `parallel_connections = 0` the cache-size zero
check sits inside the never-executed per-connection loop, so a configuration
whose `maximum_prebuild_cache_size_bytes` resolves to zero bytes is
accepted: `UnixDatagram::new` returns `Ok` with no children, not the Zero
error the claim requires. -/
theorem c9_counterexample :
    udConfigC9.maximumPrebuildCacheSizeBytes = 0 ∧
    unixDatagramNew serOne [1] 8 udConfigC9 = .ok (1, []) :=
  ⟨rfl, rfl⟩

/-- C9 amended: `UnixDatagram::new` returns the Zero error whenever the
truncated `bytes_per_second` is zero and, provided at least one parallel
connection is configured (the default is 1), whenever the truncated
`maximum_prebuild_cache_size_bytes` is zero; when both truncate to nonzero
values, construction proceeds past the zero checks and succeeds. -/
theorem c9_zero_checks (ser : Serializer) (sizes : List Nat) (fuel : Nat)
    (cfg : UDConfig) :
    (asU32 cfg.bytesPerSecond = 0 →
      unixDatagramNew ser sizes fuel cfg = .error .zero) ∧
    (asU32 cfg.maximumPrebuildCacheSizeBytes = 0 →
      asU32 cfg.bytesPerSecond ≠ 0 → 1 ≤ cfg.parallelConnections →
      unixDatagramNew ser sizes fuel cfg = .error .zero) ∧
    (asU32 cfg.bytesPerSecond ≠ 0 →
      asU32 cfg.maximumPrebuildCacheSizeBytes ≠ 0 →
      isOkE (unixDatagramNew ser sizes fuel cfg) = true) := by
  refine ⟨unixDatagramNew_bps_zero ser sizes fuel cfg, ?_, ?_⟩
  · intro htot hbps hpar
    exact unixDatagramNew_cache_zero ser sizes fuel cfg htot hbps hpar
  · intro hbps htot
    obtain ⟨caches, hok⟩ := unixDatagramNew_ok_eq ser sizes fuel cfg hbps htot
    rw [hok]
    rfl

theorem c9_zero_checks_witness :
    unixDatagramNew serOne [1] 8 udConfigBpsZero = .error .zero ∧
    unixDatagramNew serOne [1] 8 udConfigCacheZero = .error .zero ∧
    isOkE (unixDatagramNew serOne [1] 8 udConfigOk) = true :=
  ⟨(c9_zero_checks serOne [1] 8 udConfigBpsZero).1 (by decide),
   (c9_zero_checks serOne [1] 8 udConfigCacheZero).2.1 (by decide) (by decide)
     (by decide),
   (c9_zero_checks serOne [1] 8 udConfigOk).2.2 (by decide) (by decide)⟩

/-- C10: the `as u32` conversion truncates, so the effective value of a
configured byte count v is v mod 2^32; a nonzero exact multiple of 2^32 in
`bytes_per_second` is rejected with the Zero error, as is one in
`maximum_prebuild_cache_size_bytes` whenever at least one connection is
built; and any `bytes_per_second` at least 2^32 that is not a multiple of it
is silently reduced rather than rejected: construction succeeds and the
effective rate is v mod 2^32. -/
theorem c10_u32_truncation (ser : Serializer) (sizes : List Nat) (fuel : Nat)
    (cfg : UDConfig) :
    (∀ v, asU32 v = v % 2 ^ 32) ∧
    (∀ k, 0 < k → cfg.bytesPerSecond = k * 2 ^ 32 →
      unixDatagramNew ser sizes fuel cfg = .error .zero) ∧
    (∀ k, 0 < k → cfg.maximumPrebuildCacheSizeBytes = k * 2 ^ 32 →
      asU32 cfg.bytesPerSecond ≠ 0 → 1 ≤ cfg.parallelConnections →
      unixDatagramNew ser sizes fuel cfg = .error .zero) ∧
    (2 ^ 32 ≤ cfg.bytesPerSecond → asU32 cfg.bytesPerSecond ≠ 0 →
      asU32 cfg.maximumPrebuildCacheSizeBytes ≠ 0 →
      isOkE (unixDatagramNew ser sizes fuel cfg) = true ∧
      ∀ x, unixDatagramNew ser sizes fuel cfg = .ok x →
        x.1 = cfg.bytesPerSecond % 2 ^ 32) := by
  refine ⟨fun v => rfl, ?_, ?_, ?_⟩
  · intro k hk hbps
    refine unixDatagramNew_bps_zero ser sizes fuel cfg ?_
    simp [asU32, hbps, Nat.mul_mod_left]
  · intro k hk htot hbps hpar
    refine unixDatagramNew_cache_zero ser sizes fuel cfg ?_ hbps hpar
    simp [asU32, htot, Nat.mul_mod_left]
  · intro hbig hbps htot
    obtain ⟨caches, hok⟩ := unixDatagramNew_ok_eq ser sizes fuel cfg hbps htot
    constructor
    · rw [hok]; rfl
    · intro x hx
      rw [hok] at hx
      cases hx
      rfl

theorem c10_u32_truncation_witness :
    asU32 7 = 7 % 2 ^ 32 ∧
    unixDatagramNew serOne [1] 8 udConfigBpsMultiple = .error .zero ∧
    unixDatagramNew serOne [1] 8 udConfigCacheMultiple = .error .zero ∧
    isOkE (unixDatagramNew serOne [1] 8 udConfigBpsBig) = true :=
  ⟨(c10_u32_truncation serOne [1] 8 udConfigBpsBig).1 7,
   (c10_u32_truncation serOne [1] 8 udConfigBpsMultiple).2.1 1 (by decide)
     (by decide),
   (c10_u32_truncation serOne [1] 8 udConfigCacheMultiple).2.2.1 1 (by decide)
     (by decide) (by decide) (by decide),
   ((c10_u32_truncation serOne [1] 8 udConfigBpsBig).2.2.2 (by decide)
     (by decide) (by decide)).1⟩

end Lading
